import Mathlib

/-!
Shallow embedding of `src/client/simple_client.rs` (glass-fi).

The file models, from the source:
* the connection (`Conn`): a byte stream delivered in adversarial chunks,
  standing for the `TcpStream` the buffered reader wraps;
* `HttpStream` with its `with_capacity`, `fill_buf`, `consume` and `read`
  (the `Read`/`BufRead` impls, lines 102-143 of the source);
* the line-oriented response state machine inside `SimpleClient::get`'s
  `for_each` closure (lines 186-219), with Rust panics (`unwrap` on
  `None`/`Err`) modelled as an explicit `panicked` outcome;
* the driver `SimpleClient.get` (lines 154-238): URL parse and scheme
  check, address resolution, the fabricated `"Hello World!"` response on
  resolution failure, and the final `Ok(content)` return.

Bytes are modelled as `Nat`, text as `List Char` (the source's strings are
ASCII at every point the claims touch, so char count and `str::len` agree),
and Rust's `i64` as `Int` with the i64 range check in integer parsing.
-/

/-- A byte-oriented connection: `data` is the byte sequence the peer will
deliver, `sched` the adversarial chunk sizes successive reads return.
Models the `TcpStream` of `simple_client.rs`. -/
structure Conn where
  data : List Nat
  sched : List Nat
deriving DecidableEq

/-- One underlying read of at most `destLen` bytes: delivers the next chunk
(capped by the schedule head, the destination size and the bytes left) and
returns the delivered bytes with the remaining connection. -/
def Conn.read (c : Conn) (destLen : Nat) : List Nat × Conn :=
  let n := min destLen (min (c.sched.headD c.data.length) c.data.length)
  (c.data.take n, ⟨c.data.drop n, c.sched.tail⟩)

/-- The buffered socket reader of `simple_client.rs` (struct `HttpStream`,
lines 91-96): a fixed-size `buffer`, the read cursor `position` and the
valid length `capacity`. -/
structure HttpStream where
  inner : Conn
  buffer : List Nat
  position : Nat
  capacity : Nat
deriving DecidableEq

/-- Constructor `HttpStream::with_capacity` (lines 102-113): allocates a `capacity`-byte
buffer (the source leaves it uninitialized via `set_len`; the model fills it
with zeros, which is sound because the valid region is tracked by the
`capacity` field) with `position = 0` and valid length `0`. -/
def HttpStream.with_capacity (capacity : Nat) (inner : Conn) : HttpStream :=
  ⟨inner, List.replicate capacity 0, 0, 0⟩

/-- The slice `&self.buffer[self.position..self.capacity]` returned by
`fill_buf` (line 137). -/
def HttpStream.bufSlice (s : HttpStream) : List Nat :=
  (s.buffer.take s.capacity).drop s.position

/-- Method `BufRead::fill_buf` for `HttpStream` (lines 132-138): when
`position >= capacity` refills the whole buffer from the connection, sets
`capacity` to the byte count actually read and resets `position` to 0;
returns the slice `[position, capacity)` together with the new state. -/
def HttpStream.fill_buf (s : HttpStream) : List Nat × HttpStream :=
  if s.capacity ≤ s.position then
    let r := s.inner.read s.buffer.length
    let t : HttpStream := ⟨r.2, r.1 ++ s.buffer.drop r.1.length, 0, r.1.length⟩
    (t.bufSlice, t)
  else
    (s.bufSlice, s)

/-- Method `BufRead::consume` for `HttpStream` (lines 140-142):
`position = min(position + amt, capacity)`. -/
def HttpStream.consume (s : HttpStream) (amt : Nat) : HttpStream :=
  { s with position := min (s.position + amt) s.capacity }

/-- The fast path of `Read::read` (line 119): one direct connection read
into the caller's destination, bypassing the internal buffer. -/
def HttpStream.readDirect (s : HttpStream) (destLen : Nat) : List Nat × HttpStream :=
  let r := s.inner.read destLen
  (r.1, { s with inner := r.2 })

/-- The buffered path of `Read::read` (lines 122-127): `fill_buf`, copy
`min(destLen, available)` bytes out of the returned slice, then `consume`
that amount. -/
def HttpStream.readBuffered (s : HttpStream) (destLen : Nat) : List Nat × HttpStream :=
  let f := s.fill_buf
  let nread := min destLen f.1.length
  (f.1.take nread, f.2.consume nread)

/-- Method `Read::read` for `HttpStream` (lines 117-128): the fast path exactly
when `position == capacity && destLen >= buffer.len()`, otherwise the
buffered path. -/
def HttpStream.read (s : HttpStream) (destLen : Nat) : List Nat × HttpStream :=
  if s.position = s.capacity ∧ s.buffer.length ≤ destLen then
    s.readDirect destLen
  else
    s.readBuffered destLen

/-- The bookkeeping invariant of the buffered reader:
`position ≤ capacity ≤ buffer length`. -/
def HttpStream.Inv (s : HttpStream) : Prop :=
  s.position ≤ s.capacity ∧ s.capacity ≤ s.buffer.length

/-- The valid region of the buffer: the prefix written by the most recent
underlying connection read (tracked by the `capacity` counter). -/
def HttpStream.validRegion (s : HttpStream) : List Nat :=
  s.buffer.take s.capacity

/-- The bytes still owed to the caller: unread buffered bytes followed by
the bytes the connection has yet to deliver. -/
def HttpStream.logicalRem (s : HttpStream) : List Nat :=
  s.bufSlice ++ s.inner.data

/-- ASCII whitespace, the characters `str::trim` strips in every string the
client actually handles. -/
def isWhite (c : Char) : Bool :=
  c = ' ' || c = '\t' || c = '\n' || c = '\r'

/-- Rust's `str::trim`: strip whitespace from both ends. -/
def trimChars (cs : List Char) : List Char :=
  ((cs.dropWhile isWhite).reverse.dropWhile isWhite).reverse

/-- Rust's `str::find(needle)`: index of the first occurrence of `needle`, or
`none`. Used for `input.find("HTTP")` (line 198) and
`title.trim().find("Content-Length")` (line 210). -/
def findSubstrIdx (needle : List Char) : List Char → Option Nat
  | [] => if needle.isPrefixOf ([] : List Char) then some 0 else none
  | c :: t =>
    if needle.isPrefixOf (c :: t) then some 0
    else (findSubstrIdx needle t).map (fun i => i + 1)

/-- Rust's `str::splitn(2, ':')` followed by the two `next()` calls (lines
208-209): `some (title, value)` when the line contains a colon, `none`
when it does not (in which case the source's second `unwrap` panics). -/
def splitFirstColon : List Char → Option (List Char × List Char)
  | [] => none
  | c :: cs =>
    if c = ':' then some ([], cs)
    else (splitFirstColon cs).map (fun p => (c :: p.1, p.2))

/-- Decimal digit value of a character, if any. -/
def digitVal (c : Char) : Option Nat :=
  if '0' ≤ c ∧ c ≤ '9' then some (c.toNat - '0'.toNat) else none

/-- Accumulating decimal parse; `none` on the first non-digit. -/
def parseDigitsAux : List Char → Nat → Option Nat
  | [], acc => some acc
  | c :: cs, acc =>
    match digitVal c with
    | some d => parseDigitsAux cs (10 * acc + d)
    | none => none

/-- The value of `i64::MAX`. -/
def i64MaxNat : Nat := 9223372036854775807

/-- Rust's `str::parse::<i64>` (line 212): optional sign, at least one digit, all
digits, within the i64 range; `none` otherwise. -/
def parseI64 : List Char → Option Int
  | [] => none
  | '+' :: ds =>
    if ds = [] then none
    else (parseDigitsAux ds 0).bind
      (fun n => if n ≤ i64MaxNat then some ((n : Int)) else none)
  | '-' :: ds =>
    if ds = [] then none
    else (parseDigitsAux ds 0).bind
      (fun n => if n ≤ i64MaxNat + 1 then some (-(n : Int)) else none)
  | ds =>
    (parseDigitsAux ds 0).bind
      (fun n => if n ≤ i64MaxNat then some ((n : Int)) else none)

/-- The working memory of the `for_each` closure (lines 181-190): the
captured `in_http_header` and `http_content_remain` variables and the
shared `content` accumulator. -/
structure ParseState where
  in_http_header : Bool
  http_content_remain : Int
  content : List Char
deriving DecidableEq

/-- Outcome of processing one line: `cont` is the closure's `Ok(())`
(keep consuming), `complete` its `Err(())` after the final pop (stop the
stream), `panicked` an `unwrap` panic inside the closure. -/
inductive StepResult where
  | cont (st : ParseState)
  | complete (st : ParseState)
  | panicked
deriving DecidableEq

/-- The needle of `input.find("HTTP")` (line 198). -/
def httpNeedle : List Char := "HTTP".toList

/-- The needle of `title.trim().find("Content-Length")` (line 210). -/
def contentLengthNeedle : List Char := "Content-Length".toList

/-- The body of the `for_each` closure (lines 186-219), one line at a time:
body accounting when `!in_http_header && http_content_remain > 0`, else
status-line detection by a `"HTTP"` substring search, else the blank-line
header/body transition, else colon-split header parsing with the
`Content-Length` prefix check at position 0. `unwrap` calls that can fail
(missing colon part, failed integer parse, pop of an empty accumulator)
yield `panicked`. -/
def processLine (st : ParseState) (input : List Char) : StepResult :=
  if st.in_http_header = false ∧ 0 < st.http_content_remain then
    let remain := st.http_content_remain - ((input.length : Int) + 1)
    let newContent := st.content ++ input ++ [ '\n' ]
    if remain ≤ 0 then
      if newContent = [] then StepResult.panicked
      else StepResult.complete ⟨st.in_http_header, remain, newContent.dropLast⟩
    else StepResult.cont ⟨st.in_http_header, remain, newContent⟩
  else if (findSubstrIdx httpNeedle input).isSome then
    StepResult.cont ⟨true, st.http_content_remain, st.content⟩
  else if trimChars input = [] then
    StepResult.cont ⟨false, st.http_content_remain, st.content⟩
  else
    match splitFirstColon input with
    | none => StepResult.panicked
    | some (title, value) =>
      match findSubstrIdx contentLengthNeedle (trimChars title) with
      | some 0 =>
        match parseI64 (trimChars value) with
        | some n => StepResult.cont ⟨st.in_http_header, n, st.content⟩
        | none => StepResult.panicked
      | some _ => StepResult.cont st
      | none => StepResult.cont st

/-- Terminal outcome of feeding a line sequence to the state machine:
`completed` when the closure returned `Err(())` after the final pop,
`exhausted` when the lines ran out first (connection closed), `panicked`
when an `unwrap` panicked. -/
inductive ExchangeOutcome where
  | completed (body : List Char)
  | exhausted (st : ParseState)
  | panicked
deriving DecidableEq

/-- Initial closure state (lines 181-182): `in_http_header = false`,
`http_content_remain = 0`, empty accumulator. -/
def initialParseState : ParseState := ⟨false, 0, []⟩

/-- The `for_each` loop over the line sequence: thread the state until the stream
completes, panics, or the lines run out. -/
def runLines : ParseState → List (List Char) → ExchangeOutcome
  | st, [] => ExchangeOutcome.exhausted st
  | st, input :: rest =>
    match processLine st input with
    | StepResult.cont st2 => runLines st2 rest
    | StepResult.complete st2 => ExchangeOutcome.completed st2.content
    | StepResult.panicked => ExchangeOutcome.panicked

/-- A parsed URL, reduced to the field the client inspects. URL parsing
itself is the external `url` crate. -/
structure Url where
  scheme : List Char
deriving DecidableEq

/-- An opaque `url::ParseError` value. -/
structure UrlParseErr where
  code : Nat
deriving DecidableEq

/-- The `HttpResponseError` enum (lines 41-46). `ioFault` is the
`Io(std::io::Error)` variant with an opaque payload. -/
inductive HttpResponseError where
  | notHttpScheme
  | parseURL (details : UrlParseErr)
  | ioFault (details : Nat)
deriving DecidableEq

/-- What `SimpleClient::get` hands back: `ok body` models
`Ok(HttpResponse::new(body))`, `err e` models `Err(e)`, `panicked` a panic
escaping `get` itself. -/
inductive GetOutcome where
  | ok (body : List Char)
  | err (e : HttpResponseError)
  | panicked
deriving DecidableEq

/-- The environment one `get` call runs against: the URL-parse result, the
`to_socket_addrs` result (a list of addresses on success), whether the TCP
connect succeeds, and the decoded lines the response stream yields. -/
structure GetEnv where
  parseResult : Except UrlParseErr Url
  socketAddrs : Option (List Nat)
  connectOk : Bool
  lines : List (List Char)

/-- Driver `SimpleClient::get` (lines 154-238). Returns the outcome paired with a
flag recording whether a TCP connection was attempted. Control flow from
the source: URL parse failure propagates as `ParseURL`; a non-"http"
scheme returns `NotHttpScheme`; a resolution failure falls to the `else`
branch returning `Ok(HttpResponse::new("Hello World!"))`; an empty address
iterator panics on `next().unwrap()`; a connect failure is printed and
swallowed, so `get` returns `Ok` with the untouched empty accumulator;
otherwise the line machine runs and `get` returns `Ok` with whatever the
accumulator holds when it stops. -/
def SimpleClient.get (env : GetEnv) : GetOutcome × Bool :=
  match env.parseResult with
  | Except.error e => (GetOutcome.err (HttpResponseError.parseURL e), false)
  | Except.ok u =>
    if u.scheme ≠ "http".toList then
      (GetOutcome.err HttpResponseError.notHttpScheme, false)
    else
      match env.socketAddrs with
      | some [] => (GetOutcome.panicked, false)
      | some (_ :: _) =>
        if env.connectOk then
          match runLines initialParseState env.lines with
          | ExchangeOutcome.completed body => (GetOutcome.ok body, true)
          | ExchangeOutcome.exhausted st => (GetOutcome.ok st.content, true)
          | ExchangeOutcome.panicked => (GetOutcome.panicked, true)
        else (GetOutcome.ok [], true)
      | none => (GetOutcome.ok ("Hello World!".toList), false)

/-- A concrete connection used by the witnesses. -/
def sampleConn : Conn := ⟨[4, 5, 6], [2]⟩

/-- A freshly drained reader state used by the witnesses. -/
def sampleStream : HttpStream := ⟨sampleConn, [0, 0, 0, 0], 0, 0⟩

/-- A partially consumed reader state used by the witnesses. -/
def sampleStream2 : HttpStream := ⟨sampleConn, [7, 7, 7, 7], 1, 2⟩

/-- A well-formed header-then-body line sequence used by the witnesses. -/
def sampleLines : List (List Char) :=
  ["HTTP/1.1 200 OK".toList, "Content-Length: 4".toList, "".toList,
    "Hiya".toList]

/-- A line sequence whose connection closes mid-body, used by C2. -/
def truncatedLines : List (List Char) :=
  ["HTTP/1.1 200 OK".toList, "Content-Length: 100".toList, "".toList,
    "Hi".toList]

/-- Environment for C2: good URL, resolvable address, successful connect,
but the response stream closes mid-body. -/
def truncatedEnv : GetEnv :=
  ⟨Except.ok ⟨"http".toList⟩, some [0], true, truncatedLines⟩

/-- Environment whose address resolution fails (C1): good http URL, but
`to_socket_addrs` returns an error. -/
def unresolvedEnv : GetEnv := ⟨Except.ok ⟨"http".toList⟩, none, true, []⟩

/-- Environment with an ftp URL (C8): parse succeeds, scheme is not
"http". -/
def ftpEnv : GetEnv := ⟨Except.ok ⟨"ftp".toList⟩, some [0], true, []⟩

/-! ## Helper lemmas (shared) -/

theorem Conn.read_append (c : Conn) (d : Nat) :
    (c.read d).1 ++ (c.read d).2.data = c.data := by
  simp [Conn.read]

theorem Conn.read_count_le (c : Conn) (d : Nat) :
    (c.read d).1.length ≤ d := by
  simp only [Conn.read, List.length_take]
  omega

theorem HttpStream.bufSlice_eq_nil (s : HttpStream) (h : s.capacity ≤ s.position) :
    s.bufSlice = [] := by
  apply List.drop_eq_nil_of_le
  simp only [List.length_take]
  omega

theorem HttpStream.bufSlice_length (s : HttpStream) (h : s.capacity ≤ s.buffer.length) :
    s.bufSlice.length = s.capacity - s.position := by
  simp only [HttpStream.bufSlice, List.length_drop, List.length_take]
  omega

theorem HttpStream.fill_buf_fst_refill (s : HttpStream) (h : s.capacity ≤ s.position) :
    s.fill_buf.1 = (s.inner.read s.buffer.length).1 := by
  simp [HttpStream.fill_buf, h, HttpStream.bufSlice, List.take_left]

theorem HttpStream.fill_buf_snd_refill (s : HttpStream) (h : s.capacity ≤ s.position) :
    s.fill_buf.2 = ⟨(s.inner.read s.buffer.length).2,
      (s.inner.read s.buffer.length).1 ++ s.buffer.drop (s.inner.read s.buffer.length).1.length,
      0, (s.inner.read s.buffer.length).1.length⟩ := by
  simp [HttpStream.fill_buf, h]

theorem HttpStream.fill_buf_noop (s : HttpStream) (h : s.position < s.capacity) :
    s.fill_buf = (s.bufSlice, s) := by
  simp only [HttpStream.fill_buf]
  rw [if_neg (by omega)]

theorem HttpStream.fill_buf_fst_eq_bufSlice (s : HttpStream) :
    s.fill_buf.1 = s.fill_buf.2.bufSlice := by
  simp only [HttpStream.fill_buf]
  split <;> rfl

theorem HttpStream.fill_buf_buffer_length (s : HttpStream) :
    s.fill_buf.2.buffer.length = s.buffer.length := by
  by_cases h : s.capacity ≤ s.position
  · rw [HttpStream.fill_buf_snd_refill s h]
    have := Conn.read_count_le s.inner s.buffer.length
    simp only [List.length_append, List.length_drop]
    omega
  · rw [HttpStream.fill_buf_noop s (by omega)]

theorem HttpStream.fill_buf_inv (s : HttpStream) (h : s.Inv) :
    s.fill_buf.2.Inv := by
  by_cases hc : s.capacity ≤ s.position
  · rw [HttpStream.fill_buf_snd_refill s hc]
    have := Conn.read_count_le s.inner s.buffer.length
    simp only [HttpStream.Inv, List.length_append, List.length_drop]
    omega
  · rw [HttpStream.fill_buf_noop s (by omega)]
    exact h

theorem HttpStream.fill_buf_logicalRem (s : HttpStream) :
    s.fill_buf.2.logicalRem = s.logicalRem := by
  by_cases hc : s.capacity ≤ s.position
  · have hb : s.bufSlice = [] := s.bufSlice_eq_nil hc
    rw [HttpStream.fill_buf_snd_refill s hc]
    simp only [HttpStream.logicalRem, hb, List.nil_append]
    have hsl : (HttpStream.mk (s.inner.read s.buffer.length).2
        ((s.inner.read s.buffer.length).1 ++ s.buffer.drop (s.inner.read s.buffer.length).1.length)
        0 (s.inner.read s.buffer.length).1.length).bufSlice
        = (s.inner.read s.buffer.length).1 := by
      simp [HttpStream.bufSlice, List.take_left]
    rw [hsl]
    exact Conn.read_append s.inner s.buffer.length
  · rw [HttpStream.fill_buf_noop s (by omega)]

theorem HttpStream.consume_inv (s : HttpStream) (n : Nat) (h : s.Inv) :
    (s.consume n).Inv := by
  obtain ⟨h1, h2⟩ := h
  constructor
  · exact min_le_right _ _
  · simpa [HttpStream.consume] using h2

theorem HttpStream.consume_bufSlice (s : HttpStream) (n : Nat)
    (hn : s.position + n ≤ s.capacity) :
    (s.consume n).bufSlice = s.bufSlice.drop n := by
  simp only [HttpStream.consume, HttpStream.bufSlice, List.drop_drop]
  rw [min_eq_left hn]

theorem HttpStream.readDirect_delivers (s : HttpStream) (d : Nat)
    (h : s.position = s.capacity) :
    (s.readDirect d).1 ++ (s.readDirect d).2.logicalRem = s.logicalRem := by
  have hb : s.bufSlice = [] := s.bufSlice_eq_nil (le_of_eq h.symm)
  have hb2 : (s.readDirect d).2.bufSlice = s.bufSlice := rfl
  simp only [HttpStream.logicalRem, hb2, hb, List.nil_append]
  show (s.inner.read d).1 ++ (s.inner.read d).2.data = s.inner.data
  exact Conn.read_append s.inner d

theorem HttpStream.readBuffered_delivers (s : HttpStream) (d : Nat) (h : s.Inv) :
    (s.readBuffered d).1 ++ (s.readBuffered d).2.logicalRem = s.logicalRem := by
  have hfst := s.fill_buf_fst_eq_bufSlice
  have hinv := s.fill_buf_inv h
  have hrem := s.fill_buf_logicalRem
  rw [← hrem]
  simp only [HttpStream.readBuffered]
  set t := s.fill_buf.2 with ht
  set nread := min d s.fill_buf.1.length with hn
  obtain ⟨hi1, hi2⟩ := hinv
  have hlen : s.fill_buf.1.length = t.capacity - t.position := by
    rw [hfst]
    exact t.bufSlice_length hi2
  have hcons : (t.consume nread).bufSlice = t.bufSlice.drop nread := by
    apply t.consume_bufSlice
    omega
  simp only [HttpStream.logicalRem, hcons]
  have hconsInner : (t.consume nread).inner = t.inner := rfl
  rw [hconsInner, hfst, ← List.append_assoc, List.take_append_drop]

theorem HttpStream.read_delivers (s : HttpStream) (d : Nat) (h : s.Inv) :
    (s.read d).1 ++ (s.read d).2.logicalRem = s.logicalRem := by
  by_cases hc : s.position = s.capacity ∧ s.buffer.length ≤ d
  · simp only [HttpStream.read, if_pos hc]
    exact s.readDirect_delivers d hc.1
  · simp only [HttpStream.read, if_neg hc]
    exact s.readBuffered_delivers d h

theorem HttpStream.read_length_le (s : HttpStream) (d : Nat) :
    (s.read d).1.length ≤ d := by
  by_cases hc : s.position = s.capacity ∧ s.buffer.length ≤ d
  · simp only [HttpStream.read, if_pos hc, HttpStream.readDirect]
    exact Conn.read_count_le s.inner d
  · simp only [HttpStream.read, if_neg hc, HttpStream.readBuffered,
      List.length_take]
    omega

theorem HttpStream.read_inv (s : HttpStream) (d : Nat) (h : s.Inv) :
    (s.read d).2.Inv := by
  by_cases hc : s.position = s.capacity ∧ s.buffer.length ≤ d
  · simp only [HttpStream.read, if_pos hc, HttpStream.readDirect]
    exact h
  · simp only [HttpStream.read, if_neg hc, HttpStream.readBuffered]
    exact (s.fill_buf.2).consume_inv _ (s.fill_buf_inv h)

/-! ## Claim theorems: buffered stream reader (C5, C6, C9) -/

/-- C5: the buffered reader's bookkeeping invariant
`0 ≤ position ≤ capacity ≤ buffer length` (`HttpStream.Inv`; the lower
bound is inherent to `Nat`) holds after construction by `with_capacity`
and is preserved by `fill_buf`, `consume` and `read`; and whenever
`position = capacity` the buffer is logically empty (its unread slice is
`[]`) and the next `fill_buf` refills from the connection: it resets the
cursor to 0, sets the valid length to the byte count of a fresh
connection read, and advances the connection state. -/
theorem c5_bufread_invariant :
    (∀ (cap : Nat) (c : Conn), (HttpStream.with_capacity cap c).Inv) ∧
    (∀ s : HttpStream, s.Inv → s.fill_buf.2.Inv) ∧
    (∀ (s : HttpStream) (n : Nat), s.Inv → (s.consume n).Inv) ∧
    (∀ (s : HttpStream) (d : Nat), s.Inv → (s.read d).2.Inv) ∧
    (∀ s : HttpStream, s.position = s.capacity →
      s.bufSlice = [] ∧
      s.fill_buf.2.position = 0 ∧
      s.fill_buf.2.capacity = (s.inner.read s.buffer.length).1.length ∧
      s.fill_buf.2.inner = (s.inner.read s.buffer.length).2) := by
  refine ⟨?_, ?_, ?_, ?_, ?_⟩
  · intro cap c
    exact ⟨Nat.le_refl 0, Nat.zero_le _⟩
  · intro s h
    exact s.fill_buf_inv h
  · intro s n h
    exact s.consume_inv n h
  · intro s d h
    exact s.read_inv d h
  · intro s h
    have hc : s.capacity ≤ s.position := le_of_eq h.symm
    refine ⟨s.bufSlice_eq_nil hc, ?_, ?_, ?_⟩ <;>
      rw [HttpStream.fill_buf_snd_refill s hc]

/-- Witness for C5: the invariant survives a concrete `read` on a concrete
partially consumed stream state. -/
theorem c5_bufread_invariant_witness :
    (sampleStream2.read 3).2.Inv :=
  c5_bufread_invariant.2.2.2.1 sampleStream2 3 ⟨by decide, by decide⟩

/-- C6: `read` takes the fast path (one direct connection read into the
caller's destination) exactly when the internal buffer is empty
(`position = capacity`) and the destination is at least as large as the
internal buffer (`buffer.length ≤ destLen`), and otherwise goes through
`fill_buf` and `consume`; and under the bookkeeping invariant each path
delivers to the caller exactly the next bytes of the logical remaining
stream (unread buffered bytes followed by connection bytes), never more
than requested — so the two paths hand the caller byte-identical data. -/
theorem c6_read_fast_path_equivalence :
    (∀ (s : HttpStream) (d : Nat),
      s.position = s.capacity ∧ s.buffer.length ≤ d →
        s.read d = s.readDirect d) ∧
    (∀ (s : HttpStream) (d : Nat),
      ¬(s.position = s.capacity ∧ s.buffer.length ≤ d) →
        s.read d = s.readBuffered d) ∧
    (∀ (s : HttpStream) (d : Nat), s.Inv →
      (s.read d).1 ++ (s.read d).2.logicalRem = s.logicalRem ∧
        (s.read d).1.length ≤ d) ∧
    (∀ (s : HttpStream) (d : Nat), s.position = s.capacity →
      (s.readDirect d).1 ++ (s.readDirect d).2.logicalRem = s.logicalRem) ∧
    (∀ (s : HttpStream) (d : Nat), s.Inv →
      (s.readBuffered d).1 ++ (s.readBuffered d).2.logicalRem =
        s.logicalRem) := by
  refine ⟨?_, ?_, ?_, ?_, ?_⟩
  · intro s d hc
    simp only [HttpStream.read, if_pos hc]
  · intro s d hc
    simp only [HttpStream.read, if_neg hc]
  · intro s d h
    exact ⟨s.read_delivers d h, s.read_length_le d⟩
  · intro s d h
    exact s.readDirect_delivers d h
  · intro s d h
    exact s.readBuffered_delivers d h

/-- Witness for C6: on a concrete empty-buffer state with a destination
larger than the buffer, `read` delivers exactly the head of the logical
stream and no more than requested. -/
theorem c6_read_fast_path_equivalence_witness :
    (sampleStream.read 9).1 ++ (sampleStream.read 9).2.logicalRem =
        sampleStream.logicalRem ∧
      (sampleStream.read 9).1.length ≤ 9 :=
  c6_read_fast_path_equivalence.2.2.1 sampleStream 9 ⟨by decide, by decide⟩

/-- C9: the reader tracks the valid length of its fixed-capacity buffer in
the separate `capacity` counter, and `fill_buf` never exposes a byte
beyond it: every slice `fill_buf` returns is a suffix of `validRegion`
(the first `capacity` bytes of the buffer); immediately after a refill
`validRegion` is exactly the byte sequence the underlying connection read
delivered; a non-refilling `fill_buf` leaves the state unchanged and
`consume` leaves `validRegion` unchanged — so `validRegion` always holds
the bytes written by the most recent underlying connection read, and
every exposed byte lies within it. -/
theorem c9_never_exposes_beyond_valid_length :
    (∀ s : HttpStream, s.fill_buf.1 <:+ s.fill_buf.2.validRegion) ∧
    (∀ s : HttpStream, s.capacity ≤ s.position →
      s.fill_buf.2.validRegion = (s.inner.read s.buffer.length).1) ∧
    (∀ s : HttpStream, s.position < s.capacity → s.fill_buf.2 = s) ∧
    (∀ (s : HttpStream) (n : Nat),
      (s.consume n).validRegion = s.validRegion) := by
  refine ⟨?_, ?_, ?_, ?_⟩
  · intro s
    rw [s.fill_buf_fst_eq_bufSlice]
    exact List.drop_suffix _ _
  · intro s h
    rw [HttpStream.fill_buf_snd_refill s h]
    simp [HttpStream.validRegion, List.take_left]
  · intro s h
    rw [HttpStream.fill_buf_noop s h]
  · intro s n
    rfl

/-- Witness for C9: after a concrete refill, the valid prefix is exactly
the chunk the connection delivered. -/
theorem c9_never_exposes_beyond_valid_length_witness :
    sampleStream.fill_buf.2.validRegion =
      (sampleStream.inner.read sampleStream.buffer.length).1 :=
  c9_never_exposes_beyond_valid_length.2.1 sampleStream (by decide)

/-! ## Helper lemmas: line state machine -/

theorem splitFirstColon_eq_none (l : List Char) (h : ':' ∉ l) :
    splitFirstColon l = none := by
  induction l with
  | nil => rfl
  | cons c cs ih =>
    have h1 : ¬(c = ':') := by
      intro hc
      subst hc
      exact h (List.mem_cons_self _ _)
    have h2 : ':' ∉ cs := fun hm => h (List.mem_cons_of_mem c hm)
    simp only [splitFirstColon, if_neg h1, ih h2, Option.map_none']

theorem processLine_body_complete (st : ParseState) (input : List Char)
    (hph : st.in_http_header = false) (hrem : 0 < st.http_content_remain)
    (hle : st.http_content_remain ≤ (input.length : Int) + 1) :
    processLine st input =
      StepResult.complete
        ⟨false, st.http_content_remain - ((input.length : Int) + 1),
          st.content ++ input⟩ := by
  have hcond : st.in_http_header = false ∧ 0 < st.http_content_remain :=
    ⟨hph, hrem⟩
  have hne : ¬(st.content ++ input ++ [ '\n' ] = []) := by simp
  simp only [processLine, if_pos hcond, if_neg hne,
    if_pos (show st.http_content_remain - ((input.length : Int) + 1) ≤ 0 by
      omega)]
  rw [hph]
  simp [List.dropLast_concat, ← List.append_assoc]

theorem processLine_body_cont (st : ParseState) (input : List Char)
    (hph : st.in_http_header = false) (hrem : 0 < st.http_content_remain)
    (hgt : (input.length : Int) + 1 < st.http_content_remain) :
    processLine st input =
      StepResult.cont
        ⟨false, st.http_content_remain - ((input.length : Int) + 1),
          st.content ++ input ++ [ '\n' ]⟩ := by
  have hcond : st.in_http_header = false ∧ 0 < st.http_content_remain :=
    ⟨hph, hrem⟩
  simp only [processLine, if_pos hcond,
    if_neg (show ¬(st.http_content_remain - ((input.length : Int) + 1) ≤ 0)
      by omega)]
  rw [hph]

/-! ## Claim theorems: response state machine and driver -/

/-- C4: for a line processed in body phase (`in_http_header = false`, the
state after the blank separator) with `http_content_remain > 0`, the
counter is decremented by `line.length + 1` and the line plus one newline
is appended to the accumulator; if the counter has thereby dropped to
`≤ 0`, exactly the one trailing newline just appended is removed (the
accumulator ends as `content ++ input`) and the exchange completes without
consuming any further line of the sequence; otherwise processing
continues on the rest with the decremented counter and the extended
accumulator. -/
theorem c4_body_accounting (st : ParseState) (input : List Char)
    (rest : List (List Char))
    (hph : st.in_http_header = false)
    (hrem : 0 < st.http_content_remain) :
    (st.http_content_remain ≤ (input.length : Int) + 1 →
      runLines st (input :: rest) =
        ExchangeOutcome.completed (st.content ++ input)) ∧
    ((input.length : Int) + 1 < st.http_content_remain →
      runLines st (input :: rest) =
        runLines
          ⟨false, st.http_content_remain - ((input.length : Int) + 1),
            st.content ++ input ++ [ '\n' ]⟩ rest) := by
  constructor
  · intro hle
    simp only [runLines, processLine_body_complete st input hph hrem hle]
  · intro hgt
    simp only [runLines, processLine_body_cont st input hph hrem hgt]

/-- Witness for C4: a concrete body line that brings the counter to zero
completes the exchange with the trailing newline stripped, ignoring the
rest of the sequence. -/
theorem c4_body_accounting_witness :
    runLines ⟨false, 5, "AB".toList⟩ ("Hiya".toList :: ["XY".toList]) =
      ExchangeOutcome.completed ("AB".toList ++ "Hiya".toList) :=
  (c4_body_accounting ⟨false, 5, "AB".toList⟩ "Hiya".toList ["XY".toList]
    (by decide) (by decide)).1 (by decide)

/-- C10: whenever the body-accounting step runs (body phase, positive
remaining count), the accumulator it pops from has just had
`input ++ "\n"` appended and is therefore non-empty, so the
`pop().unwrap()` always succeeds: the step can never yield the `panicked`
outcome. -/
theorem c10_pop_cannot_panic (st : ParseState) (input : List Char)
    (hph : st.in_http_header = false)
    (hrem : 0 < st.http_content_remain) :
    st.content ++ input ++ [ '\n' ] ≠ [] ∧
      processLine st input ≠ StepResult.panicked := by
  refine ⟨by simp, ?_⟩
  by_cases hle : st.http_content_remain ≤ (input.length : Int) + 1
  · rw [processLine_body_complete st input hph hrem hle]
    simp
  · rw [processLine_body_cont st input hph hrem (by omega)]
    simp

/-- Witness for C10 at a concrete body-phase state and line. -/
theorem c10_pop_cannot_panic_witness :
    ("AB".toList : List Char) ++ "Hiya".toList ++ [ '\n' ] ≠ [] ∧
      processLine ⟨false, 3, "AB".toList⟩ "Hiya".toList ≠
        StepResult.panicked :=
  c10_pop_cannot_panic ⟨false, 3, "AB".toList⟩ "Hiya".toList
    (by decide) (by decide)

/-- C3 counterexample: a header-phase line with no colon (neither a status
line nor blank) makes the closure panic — the second
`header_content.next().unwrap()` (line 209) unwraps `None` — instead of
yielding any failed outcome; the model has no malformed-header `Failed`
value at all, so the claim is false on the code. -/
theorem c3_counterexample_no_colon_panics :
    processLine ⟨true, 0, []⟩ "X-Broken-Header".toList =
      StepResult.panicked := by decide

/-- C3 as amended: a line processed outside body accounting that is
neither a status line (no `"HTTP"` substring) nor blank and contains no
colon causes a panic (`unwrap` of a missing split component); the state
machine has no malformed-header failure outcome. -/
theorem c3_amended_no_colon_panics (st : ParseState) (input : List Char)
    (hbody : ¬(st.in_http_header = false ∧ 0 < st.http_content_remain))
    (hstatus : (findSubstrIdx httpNeedle input).isSome = false)
    (hblank : trimChars input ≠ [])
    (hcolon : ':' ∉ input) :
    processLine st input = StepResult.panicked := by
  have hsplit : splitFirstColon input = none :=
    splitFirstColon_eq_none input hcolon
  simp [processLine, if_neg hbody, hstatus, if_neg hblank, hsplit]

/-- Witness for C3's amended claim at a concrete header line. -/
theorem c3_amended_no_colon_panics_witness :
    processLine ⟨true, 0, []⟩ "Bad Header Line".toList =
      StepResult.panicked :=
  c3_amended_no_colon_panics ⟨true, 0, []⟩ "Bad Header Line".toList
    (by decide) (by decide) (by decide) (by decide)

/-- C7 counterexample: a `Content-Length` header whose trimmed value does
not parse as an integer makes the closure panic — the
`content.trim().parse::<_>().unwrap()` (line 212) unwraps an `Err` —
instead of surfacing a named failure outcome, so the claim is false on
the code. -/
theorem c7_counterexample_nonnumeric_content_length :
    processLine ⟨true, 0, []⟩ "Content-Length: twelve".toList =
      StepResult.panicked := by decide

/-- C7 as amended: a header line that splits at a colon, whose trimmed
name starts with `Content-Length` at position 0, and whose trimmed value
fails integer parsing, causes a panic (`unwrap` of a failed parse); the
parse failure is not surfaced as any failure outcome of the exchange. -/
theorem c7_amended_nonnumeric_content_length_panics (st : ParseState)
    (input title value : List Char)
    (hbody : ¬(st.in_http_header = false ∧ 0 < st.http_content_remain))
    (hstatus : (findSubstrIdx httpNeedle input).isSome = false)
    (hblank : trimChars input ≠ [])
    (hsplit : splitFirstColon input = some (title, value))
    (htitle : findSubstrIdx contentLengthNeedle (trimChars title) = some 0)
    (hparse : parseI64 (trimChars value) = none) :
    processLine st input = StepResult.panicked := by
  simp [processLine, if_neg hbody, hstatus, if_neg hblank, hsplit, htitle,
    hparse]

/-- Witness for C7's amended claim at a concrete malformed header. -/
theorem c7_amended_nonnumeric_content_length_panics_witness :
    processLine ⟨true, 0, []⟩ "Content-Length: zz".toList =
      StepResult.panicked :=
  c7_amended_nonnumeric_content_length_panics ⟨true, 0, []⟩
    "Content-Length: zz".toList "Content-Length".toList " zz".toList
    (by decide) (by decide) (by decide) (by decide) (by decide) (by decide)

/-- C2 counterexample: a stream that closes after delivering only 3 of the
declared 100 body bytes leaves the machine `exhausted` with
`http_content_remain = 97 > 0`, and `SimpleClient.get` nevertheless
returns the truncated accumulator `"Hi\n"` as a successful response — a
truncated silent success, not a `Failed` outcome, so the claim is false
on the code. -/
theorem c2_counterexample_truncated_silent_success :
    runLines initialParseState truncatedLines =
        ExchangeOutcome.exhausted ⟨false, 97, "Hi\n".toList⟩ ∧
      SimpleClient.get truncatedEnv =
        (GetOutcome.ok ("Hi\n".toList), true) := by
  constructor <;> decide

/-- C2 as amended: when the line sequence ends before the machine signals
completion (in particular when `remaining_body_bytes` is still positive),
`SimpleClient.get` returns whatever the accumulator holds as a successful
response; no incomplete-body failure outcome exists. -/
theorem c2_amended_truncation_returns_partial_body (env : GetEnv) (u : Url)
    (st : ParseState) (a : Nat) (addrs : List Nat)
    (hp : env.parseResult = Except.ok u)
    (hs : u.scheme = "http".toList)
    (ha : env.socketAddrs = some (a :: addrs))
    (hc : env.connectOk = true)
    (hx : runLines initialParseState env.lines =
      ExchangeOutcome.exhausted st) :
    SimpleClient.get env = (GetOutcome.ok st.content, true) := by
  simp [SimpleClient.get, hp, hs, ha, hc, hx]

/-- Witness for C2's amended claim on the concrete truncated stream. -/
theorem c2_amended_truncation_returns_partial_body_witness :
    SimpleClient.get truncatedEnv = (GetOutcome.ok ("Hi\n".toList), true) :=
  c2_amended_truncation_returns_partial_body truncatedEnv ⟨"http".toList⟩
    ⟨false, 97, "Hi\n".toList⟩ 0 [] rfl rfl rfl rfl (by decide)

/-- C1 counterexample: when address resolution fails on a well-formed
http URL, `SimpleClient::get` does not return an `IoFailure` error — it
returns `Ok(HttpResponse::new("Hello World!"))`, a fabricated body,
without attempting a connection (source lines 235-237), so the claim is
false on the code. -/
theorem c1_counterexample_fabricated_body_on_resolution_failure :
    SimpleClient.get unresolvedEnv =
      (GetOutcome.ok ("Hello World!".toList), false) := by decide

/-- C1 as amended: I/O faults are never surfaced to the caller as an
`IoFailure` error value — no execution of `SimpleClient.get` returns the
`ioFault` variant at all; in particular a DNS/address-resolution failure
produces a fabricated successful response with body `"Hello World!"`
(and no connection attempt). -/
theorem c1_amended_io_faults_never_surfaced :
    (∀ (env : GetEnv) (u : Url),
      env.parseResult = Except.ok u → u.scheme = "http".toList →
      env.socketAddrs = none →
      SimpleClient.get env =
        (GetOutcome.ok ("Hello World!".toList), false)) ∧
    (∀ (env : GetEnv) (d : Nat),
      (SimpleClient.get env).1 ≠
        GetOutcome.err (HttpResponseError.ioFault d)) := by
  constructor
  · intro env u hp hs ha
    simp [SimpleClient.get, hp, hs, ha]
  · intro env d
    unfold SimpleClient.get
    rcases env.parseResult with e | u
    · simp
    · dsimp only
      split
      · simp
      · rcases env.socketAddrs with _ | addrs
        · simp
        · rcases addrs with _ | ⟨a, l⟩
          · simp
          · dsimp only
            by_cases hco : env.connectOk = true
            · rw [if_pos hco]
              rcases runLines initialParseState env.lines with b | st2 | _ <;>
                simp
            · rw [if_neg hco]
              simp

/-- Witness for C1's amended claim on the concrete unresolvable
environment. -/
theorem c1_amended_io_faults_never_surfaced_witness :
    SimpleClient.get unresolvedEnv =
      (GetOutcome.ok ("Hello World!".toList), false) :=
  c1_amended_io_faults_never_surfaced.1 unresolvedEnv ⟨"http".toList⟩
    rfl rfl rfl

/-- C8: when URL parsing succeeds but the scheme is not "http",
`SimpleClient.get` returns the `NotHttpScheme` error and the
connection-attempted flag stays `false` — no connection is attempted
(source lines 156-158 return before `TcpStream::connect`). -/
theorem c8_invalid_scheme_no_connection (env : GetEnv) (u : Url)
    (hp : env.parseResult = Except.ok u)
    (hs : u.scheme ≠ "http".toList) :
    SimpleClient.get env =
      (GetOutcome.err HttpResponseError.notHttpScheme, false) := by
  simp only [SimpleClient.get, hp]
  rw [if_pos hs]

/-- Witness for C8 on a concrete ftp URL environment. -/
theorem c8_invalid_scheme_no_connection_witness :
    SimpleClient.get ftpEnv =
      (GetOutcome.err HttpResponseError.notHttpScheme, false) :=
  c8_invalid_scheme_no_connection ftpEnv ⟨"ftp".toList⟩ rfl (by decide)
